import Mathlib

/-!
Verification of the propets ledger backend (Go) against its specification.

The Go sources are shallowly embedded: pure helpers become Lean functions,
and the MySQL-backed repository operates on an explicit `DBState` record
holding the `ledger_entries` and `ledger_idempotency_keys` tables.  SQL
statements are translated to list operations, transactions to explicit
state passing (a failed transaction returns the original state), and the
driver-level failure points of `CreateEntryWithRequestID` are exposed
through an explicit `Faults` record so that rollback behaviour can be
stated.  Machine integers are modelled as `Int`/`Nat` (none of the verified
paths can overflow 64-bit values), `DECIMAL(12,2)` amounts as integer
cents, and fallible Go functions as `Except`/`Option`.

String manipulation (`strings.TrimSpace`, `strings.Split`, `strings.ToLower`,
substring search) is re-implemented structurally on `List Char` so that all
definitions evaluate inside the kernel; the re-implementations follow the
ASCII behaviour of the Go standard library, which covers every string the
program compares against (month keys, entry types, error keywords).
-/

deriving instance DecidableEq for Except

set_option maxRecDepth 4096
set_option exponentiation.threshold 1300

namespace Propets

/-! ## Character and string utilities (ASCII fragment of the Go stdlib) -/

/-- ASCII whitespace recognised by `strings.TrimSpace` (space, tab,
newline, vertical tab, form feed, carriage return; the non-ASCII members
of `unicode.IsSpace` are not produced by any caller in this codebase). -/
def isSpaceChar (c : Char) : Bool :=
  c = ' ' || c = '\t' || c = '\n' || c = '\r' || c.toNat = 11 || c.toNat = 12

/-- Drop leading whitespace. -/
def dropLeading (cs : List Char) : List Char :=
  cs.dropWhile isSpaceChar

/-- `strings.TrimSpace` on character lists: drop whitespace on both ends. -/
def trimChars (cs : List Char) : List Char :=
  ((cs.dropWhile isSpaceChar).reverse.dropWhile isSpaceChar).reverse

/-- `strings.TrimSpace`. -/
def trimStr (s : String) : String :=
  ⟨trimChars s.toList⟩

/-- ASCII `strings.ToLower` on a character. -/
def lowerChar (c : Char) : Char :=
  if 'A' ≤ c ∧ c ≤ 'Z' then Char.ofNat (c.toNat + 32) else c

/-- ASCII `strings.ToLower`. -/
def lowerStr (s : String) : String :=
  ⟨s.toList.map lowerChar⟩

/-- `strings.Split` with a one-character separator, on character lists. -/
def splitOnChar (sep : Char) : List Char → List (List Char)
  | [] => [[]]
  | c :: cs =>
    let rest := splitOnChar sep cs
    if c = sep then [] :: rest
    else
      match rest with
      | [] => [[c]]
      | r :: rs => (c :: r) :: rs

/-- `strings.Split s sep` for a one-character separator. -/
def splitStr (s : String) (sep : Char) : List String :=
  (splitOnChar sep s.toList).map (fun cs => ⟨cs⟩)

/-- `strings.Contains hay needle` on character lists. -/
def containsSub (needle : List Char) : List Char → Bool
  | [] => needle.isEmpty
  | c :: cs => needle.isPrefixOf (c :: cs) || containsSub needle cs

/-- Whether the lower-cased rendering of `hay` contains `needle`
(the Go code always lower-cases before searching). -/
def containsLower (hay needle : String) : Bool :=
  containsSub needle.toList (hay.toList.map lowerChar)

/-- Numeric value of a list of ASCII digits (most significant first). -/
def natOfDigits (cs : List Char) : Nat :=
  cs.foldl (fun a c => a * 10 + (c.toNat - 48)) 0

/-- Nonempty and all ASCII digits. -/
def allDigits (cs : List Char) : Bool :=
  !cs.isEmpty && cs.all Char.isDigit

/-! ## Amount validation (`internal/model/ledger_entry.go`) -/

namespace model

/-- Hexadecimal digit test. -/
def isHexDigit (c : Char) : Bool :=
  ('0' ≤ c && c ≤ '9') || ('a' ≤ c && c ≤ 'f') || ('A' ≤ c && c ≤ 'F')

/-- Hexadecimal digit value. -/
def hexDigitVal (c : Char) : Nat :=
  if '0' ≤ c ∧ c ≤ '9' then c.toNat - 48
  else if 'a' ≤ c ∧ c ≤ 'f' then c.toNat - 87
  else c.toNat - 55

/-- Numeric value of a list of hex digits (most significant first). -/
def natOfHexDigits (cs : List Char) : Nat :=
  cs.foldl (fun a c => a * 16 + hexDigitVal c) 0

/-- No two adjacent underscores. -/
def noConsecUnderscore : List Char → Bool
  | '_' :: '_' :: _ => false
  | _ :: rest => noConsecUnderscore rest
  | [] => true

/-- A digit group as accepted by `strconv`'s `underscoreOK`: nonempty,
made of digits and single separating underscores, beginning and ending
with a digit. -/
def digitsUOk (isD : Char → Bool) (cs : List Char) : Bool :=
  !cs.isEmpty && cs.all (fun c => isD c || c == '_') &&
    isD (cs.headD '_') && isD (cs.getLastD '_') && noConsecUnderscore cs

/-- The digits of a group with the separating underscores removed. -/
def stripUnderscores (cs : List Char) : List Char :=
  cs.filter (fun c => c ≠ '_')

/-- Strip one optional leading sign; returns (negative?, rest). -/
def stripSign (cs : List Char) : Bool × List Char :=
  match cs with
  | '-' :: rest => (true, rest)
  | '+' :: rest => (false, rest)
  | _ => (false, cs)

/-- Split at the first exponent marker `e`/`E`, if any. -/
def splitAtExp (cs : List Char) : List Char × Option (List Char) :=
  match cs.findIdx? (fun c => c = 'e' || c = 'E') with
  | none => (cs, none)
  | some i => (cs.take i, some (cs.drop (i + 1)))

/-- Split at the first hexadecimal exponent marker `p`/`P`, if any. -/
def splitAtP (cs : List Char) : List Char × Option (List Char) :=
  match cs.findIdx? (fun c => c = 'p' || c = 'P') with
  | none => (cs, none)
  | some i => (cs.take i, some (cs.drop (i + 1)))

/-- The result of `strconv.ParseFloat` as consumed by this program: the
special values, or a finite numeral carried as its exact rational value
`num / 10^exp10`. -/
inductive GoFloat
  | nan
  | inf (neg : Bool)
  | finite (num : Int) (exp10 : Nat)
deriving DecidableEq

/-- The special forms recognised before any numeral (Go `special`):
case-insensitive `inf`/`infinity` with an optional sign, and unsigned
case-insensitive `nan`. -/
def specialFloat? (cs : List Char) : Option GoFloat :=
  match cs.map lowerChar with
  | ['n', 'a', 'n'] => some .nan
  | lcs =>
    let sgn := stripSign lcs
    if sgn.2 = ['i', 'n', 'f'] ∨ sgn.2 = ['i', 'n', 'f', 'i', 'n', 'i', 't', 'y'] then
      some (.inf sgn.1)
    else none

/-- Mantissa of a decimal numeral: digit groups around an optional '.',
at least one digit overall, underscores per the literal syntax.  Returns
the digit value and the number of fractional digits. -/
def decMantissa? (cs : List Char) : Option (Nat × Nat) :=
  match splitOnChar '.' cs with
  | [ip] =>
    if digitsUOk Char.isDigit ip then some (natOfDigits (stripUnderscores ip), 0)
    else none
  | [ip, fp] =>
    if (ip.isEmpty || digitsUOk Char.isDigit ip) &&
        (fp.isEmpty || digitsUOk Char.isDigit fp) && !(ip.isEmpty && fp.isEmpty) then
      let fd := stripUnderscores fp
      some (natOfDigits (stripUnderscores ip) * 10 ^ fd.length + natOfDigits fd,
        fd.length)
    else none
  | _ => none

/-- The exponent of a numeral: an optional sign and a digit group. -/
def parseExpPartU? (cs : List Char) : Option Int :=
  let sgn := stripSign cs
  if digitsUOk Char.isDigit sgn.2 then
    let v : Int := (natOfDigits (stripUnderscores sgn.2) : Int)
    some (if sgn.1 then -v else v)
  else none

/-- A signed decimal numeral with optional `e` exponent, as the exact
pair `(num, k)` denoting `num / 10^k`. -/
def parseDecFloat? (cs : List Char) : Option (Int × Nat) :=
  let sgn := stripSign cs
  let parts := splitAtExp sgn.2
  match decMantissa? parts.1 with
  | none => none
  | some mk =>
    let e? : Option Int :=
      match parts.2 with
      | none => some 0
      | some es => parseExpPartU? es
    match e? with
    | none => none
    | some e =>
      let n : Int := if sgn.1 then -(mk.1 : Int) else (mk.1 : Int)
      some (if 0 ≤ e then (n * 10 ^ e.toNat, mk.2) else (n, mk.2 + (-e).toNat))

/-- Mantissa of a hexadecimal float: hex digit groups around an optional
'.', at least one digit; the integer group may begin with one underscore
because it follows the `0x` prefix (`underscoreOK` counts the prefix as
a digit).  Returns the digit value and the number of fractional hex
digits. -/
def hexMantissa? (mant : List Char) : Option (Nat × Nat) :=
  let intOk : List Char → Bool := fun ip =>
    ip.isEmpty || digitsUOk isHexDigit ip ||
      (ip.headD ' ' == '_' && digitsUOk isHexDigit (ip.drop 1))
  match splitOnChar '.' mant with
  | [ip] =>
    if intOk ip && !ip.isEmpty then some (natOfHexDigits (stripUnderscores ip), 0)
    else none
  | [ip, fp] =>
    if intOk ip && (fp.isEmpty || digitsUOk isHexDigit fp) &&
        !((stripUnderscores ip).isEmpty && fp.isEmpty) then
      let fd := stripUnderscores fp
      some (natOfHexDigits (stripUnderscores ip) * 16 ^ fd.length + natOfHexDigits fd,
        fd.length)
    else none
  | _ => none

/-- A signed hexadecimal float (`0x` mantissa with mandatory `p`
exponent) as the exact pair `(num, k)`: the value `h·2^e` is `h·2^e / 1`
for `e ≥ 0` and `h·5^(-e) / 10^(-e)` otherwise. -/
def parseHexFloat? (cs : List Char) : Option (Int × Nat) :=
  let sgn := stripSign cs
  match sgn.2 with
  | '0' :: x :: rest =>
    if x = 'x' ∨ x = 'X' then
      match splitAtP rest with
      | (_, none) => none
      | (mant, some es) =>
        match hexMantissa? mant, parseExpPartU? es with
        | some hf, some p =>
          let e2 : Int := p - 4 * (hf.2 : Int)
          let h : Int := if sgn.1 then -(hf.1 : Int) else (hf.1 : Int)
          some (if 0 ≤ e2 then (h * 2 ^ e2.toNat, 0)
                else (h * 5 ^ (-e2).toNat, (-e2).toNat))
        | _, _ => none
    else none
  | _ => none

/-- Round-to-nearest-even sends `num/10^k` beyond `float64` — and
`ParseFloat` reports `ErrRange` — exactly when the magnitude reaches
`(2^54 − 1)·2^970`, the midpoint between the largest finite `float64`
`(2^53 − 1)·2^971` and `2^1024` (the tie rounds to the even `2^1024`,
infinite). -/
def floatOverflows (num : Int) (k : Nat) : Bool :=
  decide ((2 ^ 54 - 1) * 2 ^ 970 * 10 ^ k ≤ num.natAbs)

/-- Round-to-nearest-even sends `num/10^k` to a `float64` comparing
`<= 0` exactly when `num/10^k ≤ 2^-1075`, the midpoint between zero and
the smallest subnormal `2^-1074` (the tie rounds to the even zero; an
underflowing positive numeral becomes `+0`, which Go's `parsed <= 0`
check then rejects without any parse error). -/
def floatNonpos (num : Int) (k : Nat) : Bool :=
  decide (num ≤ 0) || decide (num.toNat * 2 ^ 1075 ≤ 10 ^ k)

/-- `strconv.ParseFloat`: the special forms, hexadecimal floats, and
decimal numerals with optional exponent — signs, separating underscores
and case-insensitive markers per the Go literal syntax — correctly
rounded to `float64`.  A `finite` result carries the numeral's exact
rational value; the only two facts the callers consume — whether the
parse errs (syntax or `ErrRange`) and whether `parsed <= 0` — are
derived from that exact value through the round-to-nearest-even
thresholds `floatOverflows` and `floatNonpos`, so acceptance agrees with
the Go implementation on every input. -/
def parseGoFloat? (s : String) : Option GoFloat :=
  let cs := s.toList
  match specialFloat? cs with
  | some g => some g
  | none =>
    let fin? : Option (Int × Nat) :=
      match parseHexFloat? cs with
      | some p => some p
      | none => parseDecFloat? cs
    match fin? with
    | none => none
    | some p => if floatOverflows p.1 p.2 then none else some (.finite p.1 p.2)

/-- Go's `parsed <= 0` on the parse result: false for NaN (every IEEE
comparison with NaN is false), the sign for ±Inf, and the rounding
threshold for finite values. -/
def goFloatNonpos : GoFloat → Bool
  | .nan => false
  | .inf neg => neg
  | .finite num k => floatNonpos num k

/-- The rational value denoted by a finite parsed float `(n, k)`. -/
def decVal (p : Int × Nat) : ℚ :=
  (p.1 : ℚ) / (10 : ℚ) ^ p.2

/-- The value is expressible in hundredths, i.e. has at most two fractional
decimal places. -/
def FracAtMostTwo (p : Int × Nat) : Prop :=
  ∃ c : Int, decVal p * 100 = (c : ℚ)

/-- The four rejection causes of `ValidateAmount`, in source order; each
constructor carries the Go error message. -/
inductive AmountError
  | required
  | notDecimal
  | notPositive
  | tooManyDecimals
deriving DecidableEq

def AmountError.message : AmountError → String
  | .required => "amount is required"
  | .notDecimal => "amount must be a valid decimal"
  | .notPositive => "amount must be greater than 0"
  | .tooManyDecimals => "amount must have at most 2 decimal places"

/-- `model.ValidateAmount`: trim, parse with `strconv.ParseFloat`, reject
when the parsed float compares `<= 0`, then bound the characters after
the decimal point of the trimmed literal. -/
def ValidateAmount (raw : String) : Except AmountError Unit :=
  let amount := trimStr raw
  if amount = "" then .error .required
  else
    match parseGoFloat? amount with
    | none => .error .notDecimal
    | some g =>
      if goFloatNonpos g then .error .notPositive
      else
        let parts := splitStr amount '.'
        if parts.length = 2 ∧ 2 < (parts.getD 1 "").length then .error .tooManyDecimals
        else .ok ()

/-- The two row types of the `ledger_entries.entry_type` ENUM column. -/
inductive LedgerEntryType
  | donation
  | expense
deriving DecidableEq

/-- The string form of an entry type (Go `string(entryType)`). -/
def entryTypeStr : LedgerEntryType → String
  | .donation => "donation"
  | .expense => "expense"

end model

/-! ## Errors

One inductive collects the sentinel errors of the repository
(`ledger_repository.go`), the service-level validation errors
(`errors.New` in the services and `ledger_query_service.go`), and
driver-level failures.  `storage dup code` stands for a MySQL driver
error whose lower-cased message contains "duplicate" iff `dup` (the Go
code classifies duplicate-key violations by that substring test);
`noRows` is `sql.ErrNoRows`. -/

inductive LErr
  | entryNotFound
  | entryAlreadyDeleted
  | idemConflict
  | idemLocked
  | invalidMonthFilter
  | invalidTypeFilter
  | invalidMonth
  | invalidEntryType
  | invalidPage
  | invalidPageSize
  | validation (msg : String)
  | storage (dup : Bool) (code : Nat)
  | noRows
deriving DecidableEq

/-- The Go error message of each modelled error (used by the substring
classification in `isValidationErr` and `reserveIdempotencyKey`).  A
`storage` error carries a driver message; the two shapes the code
distinguishes are represented canonically. -/
def LErr.message : LErr → String
  | .entryNotFound => "ledger entry not found"
  | .entryAlreadyDeleted => "entry already deleted"
  | .idemConflict => "idempotency key already used by another request"
  | .idemLocked => "idempotent request is still in progress"
  | .invalidMonthFilter => "invalid month filter"
  | .invalidTypeFilter => "invalid type filter"
  | .invalidMonth => "invalid month, expected YYYY-MM"
  | .invalidEntryType => "invalid type, expected donation or expense"
  | .invalidPage => "page must be >= 1"
  | .invalidPageSize => "pageSize must be between 1 and 100"
  | .validation msg => msg
  | .storage dup _ => if dup then "Duplicate entry for key" else "driver failure"
  | .noRows => "sql: no rows in result set"

/-- The duplicate-key classification of `reserveIdempotencyKey`:
`strings.Contains(strings.ToLower(err.Error()), "duplicate")`. -/
def errIsDuplicate (e : LErr) : Bool :=
  containsLower e.message "duplicate"

/-! ## Data model (`db/init.sql`, `internal/model`) -/

/-- A row of `ledger_entries`.  `amount` is the `DECIMAL(12,2)` column in
integer cents; `occurred_at`, `created_at` and `deleted_at` are abstract
instants. -/
structure LedgerRow where
  id : Nat
  user_id : Nat
  entry_type : model.LedgerEntryType
  amount : Int
  occurred_at : Nat
  description : String
  month_key : String
  created_at : Nat
  deleted_at : Option Nat
  deleted_by : Option Nat
deriving DecidableEq

/-- A row of `ledger_idempotency_keys`. -/
structure IdemRow where
  request_id : String
  operation : String
  created_by : Nat
  entry_id : Option Nat
deriving DecidableEq

/-- The relational store: both ledger tables, the `AUTO_INCREMENT`
counter of `ledger_entries`, and the clock used for `NOW()` /
`CURRENT_TIMESTAMP`. -/
structure DBState where
  entries : List LedgerRow
  idem : List IdemRow
  nextEntryId : Nat
  now : Nat
deriving DecidableEq

namespace repository

open model

/-- `repository.CreateLedgerEntryInput`.  `amount` is already in cents
(the stored `DECIMAL(12,2)` value of the validated amount string). -/
structure CreateLedgerEntryInput where
  userID : Nat
  entryType : LedgerEntryType
  amount : Int
  occurredAt : Nat
  description : String
deriving DecidableEq

/-- The `month_key` generated column:
`DATE_FORMAT(occurred_at + INTERVAL 8 HOUR, '%Y-%m')`.  Instants reachable
in this model are calendar-date codes `y*10000 + m*100 + d` denoting local
UTC+8 midnight (see `parseOccurredAt?`), for which the shifted month is the
date's own year and month. -/
def digitChar (d : Nat) : Char := Char.ofNat (48 + d % 10)

def pad4 (n : Nat) : String :=
  ⟨[digitChar (n / 1000), digitChar (n / 100), digitChar (n / 10), digitChar n]⟩

def pad2 (n : Nat) : String :=
  ⟨[digitChar (n / 10), digitChar n]⟩

def monthKeyOf (occurredAt : Nat) : String :=
  pad4 (occurredAt / 10000) ++ "-" ++ pad2 (occurredAt / 100 % 100)

/-- `monthFilterPattern`: the regular expression
`^\d{4}-(0[1-9]|1[0-2])$`. -/
def monthKeyValid (s : String) : Bool :=
  match s.toList with
  | [a, b, c, d, dash, m1, m2] =>
    a.isDigit && b.isDigit && c.isDigit && d.isDigit && dash = '-' &&
      ((m1 = '0' && m2.isDigit && m2 ≠ '0') ||
       (m1 = '1' && (m2 = '0' || m2 = '1' || m2 = '2')))
  | _ => false

/-- `SELECT ... FROM ledger_idempotency_keys WHERE request_id = ? LIMIT 1`. -/
def findIdemRow (idem : List IdemRow) (requestID : String) : Option IdemRow :=
  idem.find? (fun r => r.request_id = requestID)

/-- `SELECT ... FROM ledger_entries WHERE id = ? LIMIT 1`. -/
def lookupEntryRow (db : DBState) (entryID : Nat) : Option LedgerRow :=
  db.entries.find? (fun r => r.id = entryID)

/-- The driver-level failure points of the coordinator transaction.  A
`some e` makes the corresponding statement fail with `e` instead of taking
effect, modelling transient storage errors. -/
structure Faults where
  beginTx : Option LErr
  insertIdem : Option LErr
  findIdem : Option LErr
  insertEntry : Option LErr
  lastInsertId : Option LErr
  updateIdem : Option LErr
  commit : Option LErr
deriving DecidableEq

/-- No injected failures: the healthy execution. -/
def noFaults : Faults := ⟨none, none, none, none, none, none, none⟩

/-- `reserveIdempotencyKey`: insert the key; on a duplicate-key violation
read the existing record and classify it as conflict, in-progress, or
replay.  Returns the replayed entry id and `reused` flag, threading the
transaction state. -/
def reserveIdempotencyKey (tx : DBState) (requestID operation : String)
    (createdBy : Nat) (f : Faults) : Except LErr (Nat × Bool) × DBState :=
  let insErr : Option LErr :=
    if (findIdemRow tx.idem requestID).isSome then some (LErr.storage true 1062)
    else f.insertIdem
  match insErr with
  | none =>
    (Except.ok (0, false),
      { tx with idem := tx.idem ++ [⟨requestID, operation, createdBy, none⟩] })
  | some e =>
    if !errIsDuplicate e then (Except.error e, tx)
    else
      match f.findIdem with
      | some e2 => (Except.error e2, tx)
      | none =>
        match findIdemRow tx.idem requestID with
        | none => (Except.error LErr.noRows, tx)
        | some row =>
          if row.operation ≠ operation ∨ row.created_by ≠ createdBy then
            (Except.error LErr.idemConflict, tx)
          else
            match row.entry_id with
            | none => (Except.error LErr.idemLocked, tx)
            | some eid => (Except.ok (eid, true), tx)

/-- The row inserted by `insertLedgerEntrySQL` inside the coordinator
transaction (ids come from `AUTO_INCREMENT`, `month_key` is generated,
`created_at` defaults to the clock, the soft-delete marker starts null). -/
def newEntryRow (tx : DBState) (input : CreateLedgerEntryInput) : LedgerRow :=
  ⟨tx.nextEntryId, input.userID, input.entryType, input.amount,
    input.occurredAt, input.description, monthKeyOf input.occurredAt,
    tx.now, none, none⟩

/-- `CreateEntryWithRequestID`: one transaction that reserves the
idempotency key, inserts the ledger entry, backfills the key's `entry_id`
and commits.  Every error path returns the original state (the deferred
rollback / failed commit discards the transaction). -/
def CreateEntryWithRequestID (db : DBState) (input : CreateLedgerEntryInput)
    (requestID : String) (f : Faults) : Except LErr (Nat × Bool) × DBState :=
  match f.beginTx with
  | some e => (Except.error e, db)
  | none =>
    match reserveIdempotencyKey db requestID (entryTypeStr input.entryType) input.userID f with
    | (Except.error e, _) => (Except.error e, db)
    | (Except.ok (existingID, true), tx) =>
      match f.commit with
      | some e => (Except.error e, db)
      | none => (Except.ok (existingID, true), tx)
    | (Except.ok (_, false), tx) =>
      match f.insertEntry with
      | some e => (Except.error e, db)
      | none =>
        let newID := tx.nextEntryId
        let tx2 : DBState :=
          { tx with entries := tx.entries ++ [newEntryRow tx input],
                    nextEntryId := newID + 1 }
        match f.lastInsertId with
        | some e => (Except.error e, db)
        | none =>
          match f.updateIdem with
          | some e => (Except.error e, db)
          | none =>
            let tx3 : DBState :=
              { tx2 with idem := tx2.idem.map (fun r =>
                  if r.request_id = requestID then { r with entry_id := some newID } else r) }
            match f.commit with
            | some e => (Except.error e, db)
            | none => (Except.ok (newID, false), tx3)

/-- The per-row effect of the conditional soft-delete update
`UPDATE ledger_entries SET deleted_at = NOW(), deleted_by = ?
WHERE id = ? AND deleted_at IS NULL`. -/
def softDeleteRow (now entryID deletedBy : Nat) (r : LedgerRow) : LedgerRow :=
  if r.id = entryID ∧ r.deleted_at = none then
    { r with deleted_at := some now, deleted_by := some deletedBy }
  else r

/-- The conditional update statement: affected-row count and new state. -/
def softDeleteUpdate (db : DBState) (entryID deletedBy : Nat) : Nat × DBState :=
  ((db.entries.filter (fun r => decide (r.id = entryID ∧ r.deleted_at = none))).length,
    { db with entries := db.entries.map (softDeleteRow db.now entryID deletedBy) })

/-- `SoftDeleteEntry` with an explicit interleaving point: `mid` is the
state change committed by concurrent transactions between the
`SELECT deleted_at` check and the conditional update (each statement runs
against the shared store at read-committed isolation). -/
def SoftDeleteEntryWith (mid : DBState → DBState) (db : DBState)
    (entryID deletedBy : Nat) : Except LErr Unit × DBState :=
  match lookupEntryRow db entryID with
  | none => (Except.error LErr.entryNotFound, db)
  | some row =>
    if row.deleted_at.isSome then (Except.error LErr.entryAlreadyDeleted, db)
    else
      let db2 := mid db
      let upd := softDeleteUpdate db2 entryID deletedBy
      if upd.1 = 0 then (Except.error LErr.entryAlreadyDeleted, upd.2)
      else (Except.ok (), upd.2)

/-- `SoftDeleteEntry` as executed without interference. -/
def SoftDeleteEntry (db : DBState) (entryID deletedBy : Nat) :
    Except LErr Unit × DBState :=
  SoftDeleteEntryWith id db entryID deletedBy

/-- `repository.ListLedgerEntriesFilter` (`Type` is the string-typed
entry-type filter, `""` meaning absent, as in Go). -/
structure ListLedgerEntriesFilter where
  monthKey : String
  type : String
  limit : Int
  offset : Int
deriving DecidableEq

/-- `ListLedgerEntriesFilter.Validate`. -/
def filterValidate (f : ListLedgerEntriesFilter) : Option LErr :=
  if f.monthKey ≠ "" ∧ ¬ monthKeyValid (trimStr f.monthKey) then
    some LErr.invalidMonthFilter
  else if f.type ≠ "" ∧ f.type ≠ "donation" ∧ f.type ≠ "expense" then
    some LErr.invalidTypeFilter
  else if f.limit < 0 ∨ f.offset < 0 then
    some (LErr.validation "limit and offset must be >= 0")
  else none

/-- The WHERE clause built by `buildLedgerFilterClause`:
`deleted_at IS NULL`, plus the optional month and type equalities. -/
def matchesFilter (f : ListLedgerEntriesFilter) (r : LedgerRow) : Bool :=
  r.deleted_at.isNone &&
    (f.monthKey = "" || r.month_key = f.monthKey) &&
    (f.type = "" || entryTypeStr r.entry_type = f.type)

/-- The output order `ORDER BY created_at DESC, id DESC`: `a` comes no
later than `b`. -/
def ledgerLE (a b : LedgerRow) : Prop :=
  b.created_at < a.created_at ∨ (b.created_at = a.created_at ∧ b.id ≤ a.id)

instance : DecidableRel ledgerLE := fun a b => by
  unfold ledgerLE; infer_instance

instance : IsTotal LedgerRow ledgerLE :=
  ⟨by intro a b; unfold ledgerLE; omega⟩

instance : IsTrans LedgerRow ledgerLE :=
  ⟨by intro a b c; unfold ledgerLE; omega⟩

/-- The filtered result set in output order. -/
def sortedMatching (db : DBState) (f : ListLedgerEntriesFilter) : List LedgerRow :=
  (db.entries.filter (matchesFilter f)).insertionSort ledgerLE

/-- `repository.ListEntries`: validate the filter, then
`SELECT ... ORDER BY created_at DESC, id DESC LIMIT ? OFFSET ?`. -/
def ListEntries (db : DBState) (f : ListLedgerEntriesFilter) :
    Except LErr (List LedgerRow) :=
  match filterValidate f with
  | some e => .error e
  | none => .ok (((sortedMatching db f).drop f.offset.toNat).take f.limit.toNat)

/-- `repository.CountEntries`: validate, then `SELECT COUNT(1)` over the
same WHERE clause. -/
def CountEntries (db : DBState) (f : ListLedgerEntriesFilter) : Except LErr Int :=
  match filterValidate f with
  | some e => .error e
  | none => .ok ((db.entries.filter (matchesFilter f)).length : Int)

/-- `repository.MonthlySummary` (totals in cents). -/
structure MonthlySummary where
  donationTotal : Int
  expenseTotal : Int
  balance : Int
deriving DecidableEq

/-- `repository.GetMonthlySummary`: trim and validate the month key, then
sum the CASE expressions over non-deleted rows of that month. -/
def GetMonthlySummary (db : DBState) (monthKey : String) :
    Except LErr MonthlySummary :=
  let m := trimStr monthKey
  if m = "" ∨ ¬ monthKeyValid m then .error LErr.invalidMonthFilter
  else
    let rows := db.entries.filter (fun r => r.month_key = m && r.deleted_at.isNone)
    .ok
      { donationTotal :=
          (rows.map (fun r => if r.entry_type = .donation then r.amount else 0)).sum
        expenseTotal :=
          (rows.map (fun r => if r.entry_type = .expense then r.amount else 0)).sum
        balance :=
          (rows.map (fun r => if r.entry_type = .donation then r.amount else -r.amount)).sum }

/-- Modelled from the spec: the repository method `UpdateEntry` called by
the service update path is not among the provided source files (only its
caller in the service layer is); per the spec it overwrites
`amount`/`occurred_at`/`description` of the addressed entry in one
statement. -/
structure UpdateLedgerEntryInput where
  entryID : Nat
  amount : Int
  occurredAt : Nat
  description : String
deriving DecidableEq

/-- Modelled from the spec: single-statement overwrite of amount,
occurrence time and description for the given entry id. -/
def UpdateEntry (db : DBState) (u : UpdateLedgerEntryInput) : DBState :=
  { db with entries := db.entries.map (fun r =>
      if r.id = u.entryID then
        { r with amount := u.amount, occurred_at := u.occurredAt,
                 description := u.description }
      else r) }

/-- `repository.GetEntryByID` (`sql.ErrNoRows` becomes
`ErrLedgerEntryNotFound`). -/
def GetEntryByID (db : DBState) (entryID : Nat) : Except LErr LedgerRow :=
  match lookupEntryRow db entryID with
  | none => .error LErr.entryNotFound
  | some r => .ok r

end repository

namespace service

open model

/-- `service.ListEntriesInput` (`Page`/`PageSize` are Go `int`). -/
structure ListEntriesInput where
  month : String
  type : String
  page : Int
  pageSize : Int
deriving DecidableEq

/-- `service.ListEntriesResult`. -/
structure ListEntriesResult where
  items : List LedgerRow
  page : Int
  pageSize : Int
  total : Int
  totalPages : Int
deriving DecidableEq

/-- `strconv.Atoi` syntax: an optionally signed nonempty digit string
(all month parts are four or two digits, far below the `int` range). -/
def atoiOk (s : String) : Bool :=
  match s.toList with
  | '-' :: rest => allDigits rest
  | '+' :: rest => allDigits rest
  | cs => allDigits cs

/-- `service.validateMonth`: the `YYYY-MM` pattern followed by the split
and `Atoi` re-checks. -/
def validateMonth (month : String) : Bool :=
  repository.monthKeyValid month &&
    (let parts := splitStr month '-'
     parts.length = 2 && atoiOk (parts.getD 0 "") && atoiOk (parts.getD 1 ""))

/-- `normalizeListEntriesInput`: trim/lower the filters, default page 0 to
1 and pageSize 0 to 20, then validate month, type, page and page size in
that order. -/
def normalizeListEntriesInput (input : ListEntriesInput) :
    Except LErr ListEntriesInput :=
  let n : ListEntriesInput :=
    { month := trimStr input.month
      type := trimStr (lowerStr input.type)
      page := if input.page = 0 then 1 else input.page
      pageSize := if input.pageSize = 0 then 20 else input.pageSize }
  if n.month ≠ "" ∧ ¬ validateMonth n.month then .error .invalidMonth
  else if n.type ≠ "" ∧ n.type ≠ "donation" ∧ n.type ≠ "expense" then
    .error .invalidEntryType
  else if n.page < 1 then .error .invalidPage
  else if n.pageSize < 1 ∨ 100 < n.pageSize then .error .invalidPageSize
  else .ok n

/-- The repository filter built by `LedgerQueryService.ListEntries` from a
normalized input. -/
def svcFilter (n : ListEntriesInput) : repository.ListLedgerEntriesFilter :=
  { monthKey := n.month, type := n.type, limit := n.pageSize,
    offset := (n.page - 1) * n.pageSize }

/-- `LedgerQueryService.ListEntries`: normalize, validate the filter,
fetch the page and the total, and derive
`total_pages = (total + pageSize - 1) / pageSize`. -/
def ListEntries (db : DBState) (input : ListEntriesInput) :
    Except LErr ListEntriesResult :=
  match normalizeListEntriesInput input with
  | .error e => .error e
  | .ok n =>
    let filter := svcFilter n
    match repository.filterValidate filter with
    | some e => .error e
    | none =>
      match repository.ListEntries db filter with
      | .error e => .error e
      | .ok items =>
        match repository.CountEntries db filter with
        | .error e => .error e
        | .ok total =>
          .ok { items := items, page := n.page, pageSize := n.pageSize,
                total := total,
                totalPages := (total + n.pageSize - 1) / n.pageSize }

/-- `parseOccurredAt`, modelled on its bare-date branch: a trimmed
`YYYY-MM-DD` string is interpreted at the fixed UTC+8 offset and encoded
as the calendar-date code `y*10000 + m*100 + d`.  Full RFC3339 date-times
(the other accepted format) are outside the modelled fragment — no claim
depends on them — and day-of-month validity is approximated as 1..31. -/
def parseOccurredAt? (raw : String) : Option Nat :=
  match (trimStr raw).toList with
  | [y1, y2, y3, y4, s1, m1, m2, s2, d1, d2] =>
    if y1.isDigit && y2.isDigit && y3.isDigit && y4.isDigit && s1 = '-' &&
        m1.isDigit && m2.isDigit && s2 = '-' && d1.isDigit && d2.isDigit then
      let m := (m1.toNat - 48) * 10 + (m2.toNat - 48)
      let d := (d1.toNat - 48) * 10 + (d2.toNat - 48)
      if 1 ≤ m ∧ m ≤ 12 ∧ 1 ≤ d ∧ d ≤ 31 then
        some (natOfDigits [y1, y2, y3, y4] * 10000 + m * 100 + d)
      else none
    else none
  | _ => none

/-- The `DECIMAL(12,2)` cents value the substrate stores for a validated
amount string (validated plain decimals have at most two fractional
digits, so the coercion is exact). -/
def amountCents (s : String) : Int :=
  match parseGoFloat? (trimStr s) with
  | some (.finite num k) => num * 100 / (10 : Int) ^ k
  | _ => 0

/-- The amount string the ledger services hand to storage:
`strings.TrimSpace(input.Amount)` (`CreateDonation`/`CreateExpense`). -/
def storedAmount (raw : String) : String := trimStr raw

/-- `service.UpdateLedgerEntryInput` (all business fields arrive as
strings from the HTTP layer). -/
structure UpdateInput where
  entryID : Nat
  donor : String
  donatedAt : String
  purpose : String
  handledBy : String
  occurredAt : String
  amount : String
deriving DecidableEq

/-- `LedgerService.UpdateLedgerEntry`: reject a zero id, validate the
amount, fetch the entry (NotFound when absent), re-validate the
type-specific fields of the entry's existing type, and overwrite through
the repository. -/
def UpdateLedgerEntry (db : DBState) (input : UpdateInput) :
    Except LErr DBState :=
  if input.entryID = 0 then .error (.validation "entry id is required")
  else
    match ValidateAmount input.amount with
    | .error e => .error (.validation e.message)
    | .ok _ =>
      match repository.GetEntryByID db input.entryID with
      | .error e => .error e
      | .ok entry =>
        let amount := trimStr input.amount
        match entry.entry_type with
        | .donation =>
          let donor := trimStr input.donor
          if donor = "" then .error (.validation "donor is required")
          else
            match parseOccurredAt? input.donatedAt with
            | none => .error (.validation "invalid donatedAt")
            | some t =>
              .ok (repository.UpdateEntry db
                ⟨input.entryID, amountCents amount, t, "donor=" ++ donor⟩)
        | .expense =>
          let purpose := trimStr input.purpose
          let handledBy := trimStr input.handledBy
          if purpose = "" then .error (.validation "purpose is required")
          else if handledBy = "" then .error (.validation "handledBy is required")
          else
            match parseOccurredAt? input.occurredAt with
            | none => .error (.validation "invalid occurredAt")
            | some t =>
              .ok (repository.UpdateEntry db
                ⟨input.entryID, amountCents amount, t,
                  "purpose=" ++ purpose ++ ";handled_by=" ++ handledBy⟩)

end service

namespace app

/-- `isValidationErr`: the lower-cased message mentions "required",
"invalid" or "amount". -/
def isValidationErr (e : LErr) : Bool :=
  containsLower e.message "required" || containsLower e.message "invalid" ||
    containsLower e.message "amount"

/-- `handleLedgerWriteError`: the HTTP status chosen for a failed ledger
write. -/
def handleLedgerWriteError (e : LErr) : Nat :=
  match e with
  | .entryNotFound => 404
  | .idemConflict => 409
  | .idemLocked => 409
  | _ => if isValidationErr e then 400 else 500

/-- The status switch of `handleDeleteEntry` for a failed soft delete. -/
def handleDeleteEntryStatus (e : LErr) : Nat :=
  match e with
  | .entryNotFound => 404
  | .entryAlreadyDeleted => 409
  | _ => 500

/-- The status switch of `handleLedgerEntries` for a failed listing. -/
def handleLedgerEntriesStatus (e : LErr) : Nat :=
  match e with
  | .invalidMonth => 400
  | .invalidEntryType => 400
  | .invalidPage => 400
  | .invalidPageSize => 400
  | _ => 500

end app

/-- The store restricted to live (not soft-deleted) rows. -/
def liveOnly (db : DBState) : DBState :=
  { db with entries := db.entries.filter (fun r => r.deleted_at.isNone) }

/-- The store with every row of the given entry id removed. -/
def dropId (db : DBState) (entryID : Nat) : DBState :=
  { db with entries := db.entries.filter (fun r => decide (r.id ≠ entryID)) }

/-! ### Concrete states used to instantiate the theorems -/

def sampleRowLive : LedgerRow :=
  ⟨1, 7, .donation, 10000, 20240102, "donor=Alice", "2024-01", 50, none, none⟩

def sampleRowDeleted : LedgerRow :=
  ⟨2, 7, .expense, 2500, 20240103, "purpose=food;handled_by=Bob", "2024-01",
    60, some 70, some 7⟩

def sampleDB : DBState := ⟨[sampleRowLive, sampleRowDeleted], [], 3, 100⟩

def sampleInput : repository.CreateLedgerEntryInput :=
  ⟨7, .donation, 10000, 20240102, "donor=Alice"⟩

/-- The same logical operation resubmitted with a different amount. -/
def sampleInputOtherAmount : repository.CreateLedgerEntryInput :=
  ⟨7, .donation, 5000, 20240102, "donor=Alice"⟩

def idemRowConflicting : IdemRow := ⟨"r1", "expense", 7, some 1⟩

def idemRowLocked : IdemRow := ⟨"r1", "donation", 7, none⟩

def dbWithIdem (row : IdemRow) : DBState := ⟨[sampleRowLive], [row], 3, 100⟩

/-- Forty-five live donation rows of one month, distinct creation times. -/
def rows45 : List LedgerRow :=
  (List.range 45).map (fun i =>
    ⟨i + 1, 7, .donation, 100, 20240102, "", "2024-01", i, none, none⟩)

def db45 : DBState := ⟨rows45, [], 46, 1000⟩

/-- An update request addressing a missing entry with a malformed
amount. -/
def updInputBad : service.UpdateInput :=
  ⟨42, "Alice", "2024-01-02", "", "", "", "abc"⟩

/-- An update request addressing a missing entry with a valid amount. -/
def updInputMissing : service.UpdateInput :=
  ⟨42, "Alice", "2024-01-02", "", "", "", "5.00"⟩

/-! ## Theorems -/

open model repository service app

/-- The signed CASE sum of `GetMonthlySummary` splits into the donation
and expense sums, because every row's type is one of the two ENUM
values. -/
theorem sum_case_split (l : List LedgerRow) :
    (l.map (fun r => if r.entry_type = .donation then r.amount else -r.amount)).sum =
      (l.map (fun r => if r.entry_type = .donation then r.amount else 0)).sum -
        (l.map (fun r => if r.entry_type = .expense then r.amount else 0)).sum := by
  induction l with
  | nil => simp
  | cons h t ih =>
    cases htype : h.entry_type <;> simp [htype, ih] <;> ring

/-- C10: whenever `GetMonthlySummary` accepts the month key, the returned
balance equals donation total minus expense total, each a sum over
non-deleted rows of that month of the respective type. -/
theorem monthly_summary_balance (db : DBState) (monthKey : String)
    (hne : trimStr monthKey ≠ "")
    (hv : monthKeyValid (trimStr monthKey) = true) :
    ∃ s, repository.GetMonthlySummary db monthKey = .ok s ∧
      s.balance = s.donationTotal - s.expenseTotal := by
  unfold repository.GetMonthlySummary
  rw [if_neg (by simp [hne, hv])]
  exact ⟨_, rfl, sum_case_split _⟩

/-- Witness for C10: the balance identity on a concrete two-row store. -/
theorem monthly_summary_balance_witness :
    trimStr "2024-01" ≠ "" ∧ monthKeyValid (trimStr "2024-01") = true ∧
      ∃ s, repository.GetMonthlySummary sampleDB "2024-01" = .ok s ∧
        s.balance = s.donationTotal - s.expenseTotal :=
  ⟨by decide, by decide,
    monthly_summary_balance sampleDB "2024-01" (by decide) (by decide)⟩

/-- A row whose soft-delete marker is already set is never touched by the
conditional update. -/
theorem softDeleteRow_of_deleted (now entryID deletedBy : Nat) (r : LedgerRow)
    (h : r.deleted_at.isSome) : softDeleteRow now entryID deletedBy r = r := by
  unfold softDeleteRow
  rw [if_neg]
  rintro ⟨-, hnone⟩
  rw [hnone] at h
  simp at h

/-- A successful soft delete applies exactly the conditional update. -/
theorem softDelete_ok_state (db : DBState) (entryID deletedBy : Nat) (row : LedgerRow)
    (hfind : lookupEntryRow db entryID = some row) (hlive : row.deleted_at = none) :
    SoftDeleteEntry db entryID deletedBy =
      (.ok (), (softDeleteUpdate db entryID deletedBy).2) := by
  unfold SoftDeleteEntry SoftDeleteEntryWith
  rw [hfind]
  simp only [hlive, Option.isSome_none, Bool.false_eq_true, if_false, id_eq]
  rw [if_neg]
  have hmem : row ∈ db.entries := List.mem_of_find?_eq_some hfind
  have hid : row.id = entryID := by
    have := List.find?_some hfind
    simpa using this
  have : row ∈ db.entries.filter
      (fun r => decide (r.id = entryID ∧ r.deleted_at = none)) :=
    List.mem_filter.mpr ⟨hmem, by simp [hid, hlive]⟩
  have hlen := List.length_pos.mpr (List.ne_nil_of_mem this)
  unfold softDeleteUpdate
  omega

/-- C4: looking up a missing id fails NotFound (404); an already-deleted
row fails AlreadyDeleted (409); a live row is deleted by the single
conditional update; if a concurrent delete commits between the check and
the update, the update affects zero rows and the call also reports
AlreadyDeleted while the state stays the one the winner produced; and the
update never touches a row whose marker is already set, so `deleted_at`
transitions from null to set at most once. -/
theorem soft_delete_protocol (db : DBState) (entryID deletedBy : Nat) :
    (lookupEntryRow db entryID = none →
      SoftDeleteEntry db entryID deletedBy = (.error .entryNotFound, db) ∧
        handleDeleteEntryStatus .entryNotFound = 404) ∧
    (∀ row, lookupEntryRow db entryID = some row → row.deleted_at.isSome →
      SoftDeleteEntry db entryID deletedBy = (.error .entryAlreadyDeleted, db) ∧
        handleDeleteEntryStatus .entryAlreadyDeleted = 409) ∧
    (∀ row, lookupEntryRow db entryID = some row → row.deleted_at = none →
      SoftDeleteEntry db entryID deletedBy =
        (.ok (), (softDeleteUpdate db entryID deletedBy).2)) ∧
    (∀ row by2, lookupEntryRow db entryID = some row → row.deleted_at = none →
      SoftDeleteEntryWith (fun d => (SoftDeleteEntry d entryID by2).2)
          db entryID deletedBy =
        (.error .entryAlreadyDeleted, (SoftDeleteEntry db entryID by2).2)) ∧
    (∀ r : LedgerRow, r.deleted_at.isSome →
      softDeleteRow db.now entryID deletedBy r = r) := by
  refine ⟨?_, ?_, ?_, ?_, fun r h => softDeleteRow_of_deleted _ _ _ r h⟩
  · intro h
    exact ⟨by unfold SoftDeleteEntry SoftDeleteEntryWith; rw [h], rfl⟩
  · intro row hfind hdel
    constructor
    · unfold SoftDeleteEntry SoftDeleteEntryWith
      rw [hfind]
      simp [hdel]
    · rfl
  · intro row hfind hlive
    exact softDelete_ok_state db entryID deletedBy row hfind hlive
  · intro row by2 hfind hlive
    have hwin := softDelete_ok_state db entryID by2 row hfind hlive
    unfold SoftDeleteEntryWith
    rw [hfind]
    simp only [hlive, Option.isSome_none, Bool.false_eq_true, if_false]
    rw [hwin]
    have hmid : (softDeleteUpdate db entryID by2).2.entries =
        db.entries.map (softDeleteRow db.now entryID by2) := rfl
    have hnow : (softDeleteUpdate db entryID by2).2.now = db.now := rfl
    have hdead : ∀ r ∈ (softDeleteUpdate db entryID by2).2.entries,
        decide (r.id = entryID ∧ r.deleted_at = none) = false := by
      rw [hmid]
      intro r hr
      rcases List.mem_map.mp hr with ⟨r0, -, rfl⟩
      unfold softDeleteRow
      by_cases h0 : r0.id = entryID ∧ r0.deleted_at = none
      · simp [h0]
      · rw [if_neg h0]
        simpa using h0
    have haff : ((softDeleteUpdate db entryID by2).2.entries.filter
        (fun r => decide (r.id = entryID ∧ r.deleted_at = none))).length = 0 := by
      rw [List.length_eq_zero, List.filter_eq_nil_iff]
      intro r hr
      simp [hdead r hr]
    have hmap : (softDeleteUpdate db entryID by2).2.entries.map
        (softDeleteRow (softDeleteUpdate db entryID by2).2.now entryID deletedBy) =
        (softDeleteUpdate db entryID by2).2.entries := by
      rw [hnow]
      calc (softDeleteUpdate db entryID by2).2.entries.map
            (softDeleteRow db.now entryID deletedBy)
          = (softDeleteUpdate db entryID by2).2.entries.map id := by
            apply List.map_congr_left
            intro r hr
            have hd := hdead r hr
            unfold softDeleteRow
            rw [if_neg (by simpa using hd)]
            rfl
        _ = (softDeleteUpdate db entryID by2).2.entries := List.map_id _
    simp only [softDeleteUpdate] at haff hmap ⊢
    rw [if_pos haff, hmap]

/-- Witness for C4: the NotFound case at a missing id and the successful
single-update case at the live sample row. -/
theorem soft_delete_protocol_witness :
    lookupEntryRow sampleDB 99 = none ∧
      (SoftDeleteEntry sampleDB 99 9 = (.error .entryNotFound, sampleDB) ∧
        handleDeleteEntryStatus .entryNotFound = 404) ∧
      lookupEntryRow sampleDB 1 = some sampleRowLive ∧
      sampleRowLive.deleted_at = none ∧
      SoftDeleteEntry sampleDB 1 9 = (.ok (), (softDeleteUpdate sampleDB 1 9).2) :=
  ⟨by decide, (soft_delete_protocol sampleDB 99 9).1 (by decide), by decide,
    by decide,
    (soft_delete_protocol sampleDB 1 9).2.2.1 sampleRowLive (by decide) (by decide)⟩

/-- Searching an appended list starts with the left part. -/
theorem find?_append_left_none {α : Type} (p : α → Bool) (l₁ l₂ : List α)
    (h : l₁.find? p = none) : (l₁ ++ l₂).find? p = l₂.find? p := by
  induction l₁ with
  | nil => rfl
  | cons x xs ih =>
    by_cases hpx : p x = true
    · rw [List.find?_cons_of_pos _ hpx] at h
      exact absurd h (by simp)
    · rw [List.find?_cons_of_neg _ hpx] at h
      rw [List.cons_append, List.find?_cons_of_neg _ hpx]
      exact ih h

/-- C1: a fresh request id makes the coordinator insert exactly one new
ledger entry, point the idempotency record at its id, and return
`(newID, wasReplayed = false)`; every later call with the same request
id, operation and actor returns the original id with
`wasReplayed = true` and leaves the store unchanged, whatever the rest of
the payload (in particular a different amount). -/
theorem coordinator_fresh_then_replay (db : DBState)
    (input : repository.CreateLedgerEntryInput) (requestID : String)
    (hfresh : findIdemRow db.idem requestID = none) :
    CreateEntryWithRequestID db input requestID noFaults =
      (.ok (db.nextEntryId, false),
        { entries := db.entries ++ [newEntryRow db input]
          idem := db.idem ++ [⟨requestID, entryTypeStr input.entryType,
            input.userID, some db.nextEntryId⟩]
          nextEntryId := db.nextEntryId + 1
          now := db.now }) ∧
    (∀ input2 : repository.CreateLedgerEntryInput,
      input2.entryType = input.entryType → input2.userID = input.userID →
      CreateEntryWithRequestID (CreateEntryWithRequestID db input requestID noFaults).2
          input2 requestID noFaults =
        (.ok (db.nextEntryId, true),
          (CreateEntryWithRequestID db input requestID noFaults).2)) := by
  have hall : ∀ r ∈ db.idem, ¬ (r.request_id = requestID) := by
    intro r hr
    have := List.find?_eq_none.mp hfresh r hr
    simpa using this
  have hmap : db.idem.map (fun r =>
      if r.request_id = requestID then { r with entry_id := some db.nextEntryId }
      else r) = db.idem := by
    calc db.idem.map (fun r =>
          if r.request_id = requestID then { r with entry_id := some db.nextEntryId }
          else r)
        = db.idem.map id := by
          apply List.map_congr_left
          intro r hr
          rw [if_neg (hall r hr)]
          rfl
      _ = db.idem := List.map_id _
  have h1 : CreateEntryWithRequestID db input requestID noFaults =
      (.ok (db.nextEntryId, false),
        { entries := db.entries ++ [newEntryRow db input]
          idem := db.idem ++ [⟨requestID, entryTypeStr input.entryType,
            input.userID, some db.nextEntryId⟩]
          nextEntryId := db.nextEntryId + 1
          now := db.now }) := by
    unfold CreateEntryWithRequestID reserveIdempotencyKey noFaults
    simp only [hfresh, Option.isSome_none, Bool.false_eq_true, if_false,
      List.map_append, hmap]
    simp [newEntryRow]
  refine ⟨h1, ?_⟩
  intro input2 h2t h2u
  rw [h1]
  have hfind1 : findIdemRow (db.idem ++ [⟨requestID, entryTypeStr input.entryType,
      input.userID, some db.nextEntryId⟩]) requestID =
      some ⟨requestID, entryTypeStr input.entryType, input.userID,
        some db.nextEntryId⟩ := by
    unfold findIdemRow
    unfold findIdemRow at hfresh
    rw [find?_append_left_none _ _ _ hfresh]
    simp
  have hdup : errIsDuplicate (LErr.storage true 1062) = true := by decide
  unfold CreateEntryWithRequestID reserveIdempotencyKey noFaults
  simp only [hfind1, Option.isSome_some, if_true, hdup, h2t, h2u,
    Bool.not_true, Bool.false_eq_true, if_false]
  simp

/-- Witness for C1: a concrete first call and its replay with a different
amount. -/
theorem coordinator_fresh_then_replay_witness :
    findIdemRow sampleDB.idem "r1" = none ∧
      CreateEntryWithRequestID sampleDB sampleInput "r1" noFaults =
        (.ok (sampleDB.nextEntryId, false),
          { entries := sampleDB.entries ++ [newEntryRow sampleDB sampleInput]
            idem := sampleDB.idem ++ [⟨"r1", entryTypeStr sampleInput.entryType,
              sampleInput.userID, some sampleDB.nextEntryId⟩]
            nextEntryId := sampleDB.nextEntryId + 1
            now := sampleDB.now }) ∧
      CreateEntryWithRequestID
          (CreateEntryWithRequestID sampleDB sampleInput "r1" noFaults).2
          sampleInputOtherAmount "r1" noFaults =
        (.ok (sampleDB.nextEntryId, true),
          (CreateEntryWithRequestID sampleDB sampleInput "r1" noFaults).2) := by
  have h := coordinator_fresh_then_replay sampleDB sampleInput "r1" (by decide)
  exact ⟨by decide, h.1, h.2 sampleInputOtherAmount (by decide) (by decide)⟩

/-- C2: reusing an existing request id with a different operation or a
different actor fails with the idempotency Conflict (mapped to 409) and
changes nothing; with matching operation and actor but a still-unset
entry id it fails RequestInProgress (mapped to 409) and changes
nothing. -/
theorem idempotency_conflict_and_locked (db : DBState)
    (input : repository.CreateLedgerEntryInput) (requestID : String)
    (row : IdemRow) (hrow : findIdemRow db.idem requestID = some row) :
    (row.operation ≠ entryTypeStr input.entryType ∨ row.created_by ≠ input.userID →
      CreateEntryWithRequestID db input requestID noFaults =
        (.error .idemConflict, db) ∧ handleLedgerWriteError .idemConflict = 409) ∧
    (row.operation = entryTypeStr input.entryType → row.created_by = input.userID →
      row.entry_id = none →
      CreateEntryWithRequestID db input requestID noFaults =
        (.error .idemLocked, db) ∧ handleLedgerWriteError .idemLocked = 409) := by
  have hdup : errIsDuplicate (LErr.storage true 1062) = true := by decide
  constructor
  · intro hdiff
    refine ⟨?_, rfl⟩
    unfold CreateEntryWithRequestID reserveIdempotencyKey noFaults
    simp only [hrow, Option.isSome_some, if_true, hdup, Bool.not_true,
      Bool.false_eq_true, if_false]
    rw [if_pos hdiff]
  · intro hop huid hnone
    refine ⟨?_, rfl⟩
    unfold CreateEntryWithRequestID reserveIdempotencyKey noFaults
    simp only [hrow, Option.isSome_some, if_true, hdup, Bool.not_true,
      Bool.false_eq_true, if_false]
    rw [if_neg (by simp [hop, huid]), hnone]

/-- Witness for C2: a conflicting operation and a locked record at
concrete states. -/
theorem idempotency_conflict_and_locked_witness :
    findIdemRow (dbWithIdem idemRowConflicting).idem "r1" = some idemRowConflicting ∧
      (CreateEntryWithRequestID (dbWithIdem idemRowConflicting) sampleInput "r1"
          noFaults =
        (.error .idemConflict, dbWithIdem idemRowConflicting) ∧
        handleLedgerWriteError .idemConflict = 409) ∧
      findIdemRow (dbWithIdem idemRowLocked).idem "r1" = some idemRowLocked ∧
      (CreateEntryWithRequestID (dbWithIdem idemRowLocked) sampleInput "r1"
          noFaults =
        (.error .idemLocked, dbWithIdem idemRowLocked) ∧
        handleLedgerWriteError .idemLocked = 409) :=
  ⟨by decide,
    (idempotency_conflict_and_locked (dbWithIdem idemRowConflicting) sampleInput
      "r1" idemRowConflicting (by decide)).1 (by decide),
    by decide,
    (idempotency_conflict_and_locked (dbWithIdem idemRowLocked) sampleInput
      "r1" idemRowLocked (by decide)).2 (by decide) (by decide) (by decide)⟩

/-- C3: every failing execution of the coordinator returns the original
store (full rollback: neither the idempotency record nor the entry
becomes visible), and each injected pre-commit failure — a non-duplicate
reservation-insert error, an entry-insert error, a LastInsertId error, a
backfill error, or a commit error — surfaces as the returned error rather
than being swallowed. -/
theorem coordinator_rollback_on_failure :
    (∀ db input requestID f e dbout,
      CreateEntryWithRequestID db input requestID f = (.error e, dbout) →
      dbout = db) ∧
    (∀ db input requestID c, findIdemRow db.idem requestID = none →
      CreateEntryWithRequestID db input requestID
          ⟨none, some (LErr.storage false c), none, none, none, none, none⟩ =
        (.error (LErr.storage false c), db)) ∧
    (∀ db input requestID e, findIdemRow db.idem requestID = none →
      CreateEntryWithRequestID db input requestID
          ⟨none, none, none, some e, none, none, none⟩ = (.error e, db)) ∧
    (∀ db input requestID e, findIdemRow db.idem requestID = none →
      CreateEntryWithRequestID db input requestID
          ⟨none, none, none, none, none, some e, none⟩ = (.error e, db)) ∧
    (∀ db input requestID e, findIdemRow db.idem requestID = none →
      CreateEntryWithRequestID db input requestID
          ⟨none, none, none, none, none, none, some e⟩ = (.error e, db)) := by
  refine ⟨?_, ?_, ?_, ?_, ?_⟩
  · intro db input requestID f e dbout h
    unfold CreateEntryWithRequestID reserveIdempotencyKey at h
    repeat' split at h
    all_goals simp_all
  · intro db input requestID c hfresh
    have hnd : errIsDuplicate (LErr.storage false c) = false := rfl
    unfold CreateEntryWithRequestID reserveIdempotencyKey
    simp [hfresh, hnd]
  · intro db input requestID e hfresh
    unfold CreateEntryWithRequestID reserveIdempotencyKey
    simp [hfresh]
  · intro db input requestID e hfresh
    unfold CreateEntryWithRequestID reserveIdempotencyKey
    simp [hfresh]
  · intro db input requestID e hfresh
    unfold CreateEntryWithRequestID reserveIdempotencyKey
    simp [hfresh]

/-- Witness for C3: a concrete fresh call whose entry insert fails with a
driver error rolls back to the original store. -/
theorem coordinator_rollback_on_failure_witness :
    findIdemRow sampleDB.idem "r1" = none ∧
      CreateEntryWithRequestID sampleDB sampleInput "r1"
          ⟨none, none, none, some (LErr.storage false 1213), none, none, none⟩ =
        (.error (LErr.storage false 1213), sampleDB) :=
  ⟨by decide,
    coordinator_rollback_on_failure.2.2.1 sampleDB sampleInput "r1"
      (LErr.storage false 1213) (by decide)⟩

/-- C7, counterexample to the claim as stated: `UpdateLedgerEntry`
validates the amount before fetching the entry, so an update of a
non-existent id whose amount is also invalid fails with the amount
validation error, not with NotFound. -/
theorem update_validates_amount_before_fetch :
    lookupEntryRow sampleDB 42 = none ∧
      service.UpdateLedgerEntry sampleDB updInputBad =
        .error (.validation "amount must be a valid decimal") ∧
      service.UpdateLedgerEntry sampleDB updInputBad ≠
        .error .entryNotFound := by
  exact ⟨by decide, by decide, by decide⟩

/-- C7 (amended): the update path checks the amount first (an invalid
amount wins over a missing entry), then fetches the entry by id and fails
NotFound if it is absent, then re-validates the type-specific fields of
the entry's existing type and overwrites amount, occurred_at and
description in one statement; a successful update never changes any
entry's id or type. -/
theorem update_entry_flow (db : DBState) (input : service.UpdateInput) :
    (∀ e, ValidateAmount input.amount = .error e → input.entryID ≠ 0 →
      service.UpdateLedgerEntry db input = .error (.validation e.message)) ∧
    (ValidateAmount input.amount = .ok () → input.entryID ≠ 0 →
      lookupEntryRow db input.entryID = none →
      service.UpdateLedgerEntry db input = .error .entryNotFound) ∧
    (∀ db2, service.UpdateLedgerEntry db input = .ok db2 →
      db2.entries.map (fun r => (r.id, r.entry_type)) =
        db.entries.map (fun r => (r.id, r.entry_type))) := by
  have key : ∀ u, (repository.UpdateEntry db u).entries.map
      (fun r => (r.id, r.entry_type)) =
      db.entries.map (fun r => (r.id, r.entry_type)) := by
    intro u
    unfold repository.UpdateEntry
    simp only [List.map_map]
    apply List.map_congr_left
    intro r hr
    by_cases hid : r.id = u.entryID <;> simp [hid]
  refine ⟨?_, ?_, ?_⟩
  · intro e he hid
    unfold service.UpdateLedgerEntry
    rw [if_neg hid, he]
  · intro hok hid hmiss
    unfold service.UpdateLedgerEntry
    rw [if_neg hid, hok]
    unfold repository.GetEntryByID
    rw [hmiss]
  · intro db2 h
    unfold service.UpdateLedgerEntry at h
    repeat' split at h
    all_goals try simp only [] at h
    all_goals repeat' split at h
    all_goals try (exfalso; simp at h; done)
    all_goals (injection h with h2; subst h2; exact key _)

/-- Witness for the amended C7 theorem: a valid amount and a missing id
yield NotFound at a concrete state. -/
theorem update_entry_flow_witness :
    ValidateAmount updInputMissing.amount = .ok () ∧
      updInputMissing.entryID ≠ 0 ∧
      lookupEntryRow sampleDB updInputMissing.entryID = none ∧
      service.UpdateLedgerEntry sampleDB updInputMissing =
        .error .entryNotFound :=
  ⟨by decide, by decide, by decide,
    (update_entry_flow sampleDB updInputMissing).2.1 (by decide) (by decide)
      (by decide)⟩

/-- A validated filter makes `repository.ListEntries` return the ordered
page. -/
theorem repo_list_ok (db : DBState) (f : repository.ListLedgerEntriesFilter)
    (hv : repository.filterValidate f = none) :
    repository.ListEntries db f =
      .ok (((sortedMatching db f).drop f.offset.toNat).take f.limit.toNat) := by
  unfold repository.ListEntries
  rw [hv]

/-- A validated filter makes `repository.CountEntries` return the size of
the matching set. -/
theorem repo_count_ok (db : DBState) (f : repository.ListLedgerEntriesFilter)
    (hv : repository.filterValidate f = none) :
    repository.CountEntries db f =
      .ok ((db.entries.filter (repository.matchesFilter f)).length : Int) := by
  unfold repository.CountEntries
  rw [hv]

/-- Successful normalization applies exactly the trim/lower and the two
defaults, and its page and page size satisfy the validated bounds. -/
theorem normalize_ok_shape (input n : service.ListEntriesInput)
    (h : service.normalizeListEntriesInput input = .ok n) :
    n = { month := trimStr input.month
          type := trimStr (lowerStr input.type)
          page := if input.page = 0 then 1 else input.page
          pageSize := if input.pageSize = 0 then 20 else input.pageSize } ∧
      1 ≤ n.page ∧ 1 ≤ n.pageSize ∧ n.pageSize ≤ 100 := by
  unfold service.normalizeListEntriesInput at h
  try simp only [] at h
  repeat' split at h
  all_goals try (exfalso; simp at h; done)
  all_goals injection h with h2
  all_goals subst h2
  all_goals refine ⟨?_, ?_, ?_, ?_⟩ <;> simp_all

/-- C8: page 0 defaults to 1 and page size 0 defaults to 20; after
defaulting (and once the month and type filters pass their own checks) a
page below 1 is rejected with ErrInvalidPage and a page size outside
1..100 with ErrInvalidPageSize, both mapped to HTTP 400; consequently a
successful listing never returns more than 100 items. -/
theorem list_pagination_bounds :
    (∀ input n : service.ListEntriesInput,
      service.normalizeListEntriesInput input = .ok n →
      (input.page = 0 → n.page = 1) ∧ (input.pageSize = 0 → n.pageSize = 20) ∧
        1 ≤ n.page ∧ 1 ≤ n.pageSize ∧ n.pageSize ≤ 100) ∧
    (∀ input : service.ListEntriesInput,
      (trimStr input.month = "" ∨ validateMonth (trimStr input.month) = true) →
      (trimStr (lowerStr input.type) = "" ∨
        trimStr (lowerStr input.type) = "donation" ∨
        trimStr (lowerStr input.type) = "expense") →
      (if input.page = 0 then 1 else input.page) < 1 →
      service.normalizeListEntriesInput input = .error .invalidPage) ∧
    (∀ input : service.ListEntriesInput,
      (trimStr input.month = "" ∨ validateMonth (trimStr input.month) = true) →
      (trimStr (lowerStr input.type) = "" ∨
        trimStr (lowerStr input.type) = "donation" ∨
        trimStr (lowerStr input.type) = "expense") →
      1 ≤ (if input.page = 0 then 1 else input.page) →
      ((if input.pageSize = 0 then 20 else input.pageSize) < 1 ∨
        100 < (if input.pageSize = 0 then 20 else input.pageSize)) →
      service.normalizeListEntriesInput input = .error .invalidPageSize) ∧
    (∀ (db : DBState) (input : service.ListEntriesInput) r,
      service.ListEntries db input = .ok r → r.items.length ≤ 100) ∧
    (handleLedgerEntriesStatus .invalidPage = 400 ∧
      handleLedgerEntriesStatus .invalidPageSize = 400) := by
  refine ⟨?_, ?_, ?_, ?_, rfl, rfl⟩
  · intro input n h
    obtain ⟨hshape, hp, hs, hs2⟩ := normalize_ok_shape input n h
    subst hshape
    refine ⟨fun h0 => by simp [h0], fun h0 => by simp [h0], hp, hs, hs2⟩
  · intro input hm ht hp
    unfold service.normalizeListEntriesInput
    rw [if_neg (by rcases hm with h | h <;> simp [h])]
    rw [if_neg (by rcases ht with h | h | h <;> simp [h])]
    rw [if_pos hp]
  · intro input hm ht hp hs
    unfold service.normalizeListEntriesInput
    rw [if_neg (by rcases hm with h | h <;> simp [h])]
    rw [if_neg (by rcases ht with h | h | h <;> simp [h])]
    rw [if_neg (not_lt.mpr hp)]
    rw [if_pos hs]
  · intro db input r h
    cases hn : service.normalizeListEntriesInput input with
    | error e =>
      simp only [service.ListEntries, hn] at h
      exact absurd h (by simp)
    | ok n =>
      obtain ⟨-, -, -, hs2⟩ := normalize_ok_shape input n hn
      cases hv : repository.filterValidate (svcFilter n) with
      | some e =>
        simp only [service.ListEntries, hn, hv] at h
        exact absurd h (by simp)
      | none =>
        simp only [service.ListEntries, hn, hv,
          repo_list_ok db (svcFilter n) hv, repo_count_ok db (svcFilter n) hv] at h
        injection h with h2
        subst h2
        calc ((((sortedMatching db (svcFilter n)).drop
                (svcFilter n).offset.toNat).take (svcFilter n).limit.toNat)).length
            ≤ (svcFilter n).limit.toNat := List.length_take_le _ _
          _ ≤ 100 := by
              have hl : (svcFilter n).limit = n.pageSize := rfl
              omega

/-- Witness for C8: page defaulting on a zeroed input and the
ErrInvalidPage rejection of a negative page. -/
theorem list_pagination_bounds_witness :
    service.normalizeListEntriesInput ⟨"", "", 0, 0⟩ = .ok ⟨"", "", 1, 20⟩ ∧
      (trimStr "" = "" ∨ validateMonth (trimStr "") = true) ∧
      (if (-1 : Int) = 0 then (1 : Int) else (-1 : Int)) < 1 ∧
      service.normalizeListEntriesInput ⟨"", "", -1, 10⟩ =
        .error .invalidPage :=
  ⟨by decide, Or.inl (by decide), by decide,
    list_pagination_bounds.2.1 ⟨"", "", -1, 10⟩ (Or.inl (by decide))
      (Or.inl (by decide)) (by decide)⟩

/-- A row matched by the list filter is necessarily live. -/
theorem matchesFilter_live (f : repository.ListLedgerEntriesFilter)
    (r : LedgerRow) (h : repository.matchesFilter f r = true) :
    r.deleted_at = none := by
  unfold repository.matchesFilter at h
  cases hd : r.deleted_at with
  | none => rfl
  | some t => rw [hd] at h; simp at h

/-- Restricting to live rows first does not change the filtered set of a
listing query. -/
theorem filter_live_absorb (f : repository.ListLedgerEntriesFilter)
    (l : List LedgerRow) :
    (l.filter (fun r => r.deleted_at.isNone)).filter (repository.matchesFilter f) =
      l.filter (repository.matchesFilter f) := by
  rw [List.filter_filter]
  apply List.filter_congr
  intro r hr
  cases hd : r.deleted_at <;> simp [repository.matchesFilter, hd]

/-- Restricting to live rows first does not change the summary's row
set. -/
theorem filter_live_absorb_summary (m : String) (l : List LedgerRow) :
    (l.filter (fun r => r.deleted_at.isNone)).filter
        (fun r => r.month_key = m && r.deleted_at.isNone) =
      l.filter (fun r => r.month_key = m && r.deleted_at.isNone) := by
  rw [List.filter_filter]
  apply List.filter_congr
  intro r hr
  cases hd : r.deleted_at <;> simp [hd]

/-- A successful soft delete produces exactly the mapped store. -/
theorem softDelete_ok_shape (db : DBState) (entryID deletedBy : Nat)
    (h : (SoftDeleteEntry db entryID deletedBy).1 = .ok ()) :
    (SoftDeleteEntry db entryID deletedBy).2 =
      { db with entries := db.entries.map (softDeleteRow db.now entryID deletedBy) } := by
  cases hl : lookupEntryRow db entryID with
  | none =>
    exfalso
    unfold SoftDeleteEntry SoftDeleteEntryWith at h
    rw [hl] at h
    simp at h
  | some row =>
    by_cases hd : row.deleted_at.isSome
    · exfalso
      unfold SoftDeleteEntry SoftDeleteEntryWith at h
      rw [hl] at h
      simp [hd] at h
    · unfold SoftDeleteEntry SoftDeleteEntryWith
      rw [hl]
      simp only [hd, Bool.false_eq_true, if_false, id_eq]
      rw [apply_ite Prod.snd]
      simp [softDeleteUpdate]

/-- After a successful soft delete of an id, every row carrying that id is
marked deleted. -/
theorem softDelete_marks_id (db : DBState) (entryID deletedBy : Nat)
    (h : (SoftDeleteEntry db entryID deletedBy).1 = .ok ()) :
    ∀ r ∈ (SoftDeleteEntry db entryID deletedBy).2.entries,
      r.id = entryID → r.deleted_at ≠ none := by
  intro r hr hid
  rw [softDelete_ok_shape db entryID deletedBy h] at hr
  rcases List.mem_map.mp hr with ⟨r0, -, rfl⟩
  unfold softDeleteRow at hid ⊢
  by_cases h0 : r0.id = entryID ∧ r0.deleted_at = none
  · simp [h0]
  · rw [if_neg h0] at hid ⊢
    intro hn
    exact h0 ⟨hid, hn⟩

/-- C9: the listing, counting and summary queries all restrict themselves
to live rows, and a successful soft delete keeps the storage row (same
ids in the table) while removing the entry from every listing, from the
count, and from the monthly totals. -/
theorem soft_deleted_invisible (db : DBState)
    (f : repository.ListLedgerEntriesFilter) (monthKey : String)
    (entryID deletedBy : Nat) :
    repository.ListEntries db f = repository.ListEntries (liveOnly db) f ∧
    repository.CountEntries db f = repository.CountEntries (liveOnly db) f ∧
    repository.GetMonthlySummary db monthKey =
      repository.GetMonthlySummary (liveOnly db) monthKey ∧
    ((SoftDeleteEntry db entryID deletedBy).1 = .ok () →
      (SoftDeleteEntry db entryID deletedBy).2.entries.map (fun r => r.id) =
          db.entries.map (fun r => r.id) ∧
      (∀ items, repository.ListEntries
          (SoftDeleteEntry db entryID deletedBy).2 f = .ok items →
        ∀ r ∈ items, r.id ≠ entryID) ∧
      repository.CountEntries (SoftDeleteEntry db entryID deletedBy).2 f =
        repository.CountEntries
          (dropId (SoftDeleteEntry db entryID deletedBy).2 entryID) f ∧
      repository.GetMonthlySummary (SoftDeleteEntry db entryID deletedBy).2
          monthKey =
        repository.GetMonthlySummary
          (dropId (SoftDeleteEntry db entryID deletedBy).2 entryID) monthKey) := by
  refine ⟨?_, ?_, ?_, ?_⟩
  · unfold repository.ListEntries
    cases hv : repository.filterValidate f with
    | some e => rfl
    | none =>
      simp only []
      unfold sortedMatching liveOnly
      rw [filter_live_absorb]
  · unfold repository.CountEntries
    cases hv : repository.filterValidate f with
    | some e => rfl
    | none =>
      simp only []
      unfold liveOnly
      rw [filter_live_absorb]
  · unfold repository.GetMonthlySummary
    by_cases hm : trimStr monthKey = "" ∨
        ¬ repository.monthKeyValid (trimStr monthKey) = true
    · rw [if_pos hm, if_pos hm]
    · rw [if_neg hm, if_neg hm]
      unfold liveOnly
      rw [filter_live_absorb_summary]
  · intro h
    have hdead := softDelete_marks_id db entryID deletedBy h
    refine ⟨?_, ?_, ?_, ?_⟩
    · rw [softDelete_ok_shape db entryID deletedBy h]
      simp only [List.map_map]
      apply List.map_congr_left
      intro r hr
      unfold softDeleteRow
      by_cases h0 : r.id = entryID ∧ r.deleted_at = none <;> simp [h0]
    · intro items hitems r hrit hid
      unfold repository.ListEntries at hitems
      cases hv : repository.filterValidate f with
      | some e => rw [hv] at hitems; exact absurd hitems (by simp)
      | none =>
        rw [hv] at hitems
        simp only [Except.ok.injEq] at hitems
        subst hitems
        have hsorted : r ∈ sortedMatching (SoftDeleteEntry db entryID deletedBy).2 f :=
          List.mem_of_mem_drop (List.mem_of_mem_take hrit)
        have hfil : r ∈ (SoftDeleteEntry db entryID deletedBy).2.entries.filter
            (repository.matchesFilter f) :=
          ((List.perm_insertionSort ledgerLE _).mem_iff).mp hsorted
        rcases List.mem_filter.mp hfil with ⟨hmem, hmat⟩
        exact hdead r hmem hid (matchesFilter_live f r hmat)
    · unfold repository.CountEntries
      cases hv : repository.filterValidate f with
      | some e => rfl
      | none =>
        simp only [Except.ok.injEq, Int.natCast_inj]
        unfold dropId
        rw [List.filter_filter]
        have hfeq : (SoftDeleteEntry db entryID deletedBy).2.entries.filter
            (repository.matchesFilter f) =
            (SoftDeleteEntry db entryID deletedBy).2.entries.filter
              (fun a => repository.matchesFilter f a && decide (a.id ≠ entryID)) := by
          apply List.filter_congr
          intro r hr
          by_cases hid : r.id = entryID
          · have hf : repository.matchesFilter f r = false := by
              cases hb : repository.matchesFilter f r
              · rfl
              · exact absurd (matchesFilter_live f r hb) (hdead r hr hid)
            simp [hf]
          · simp [hid]
        rw [hfeq]
    · unfold repository.GetMonthlySummary
      by_cases hm : trimStr monthKey = "" ∨
          ¬ repository.monthKeyValid (trimStr monthKey) = true
      · rw [if_pos hm, if_pos hm]
      · rw [if_neg hm, if_neg hm]
        unfold dropId
        rw [List.filter_filter]
        have heq : ∀ r ∈ (SoftDeleteEntry db entryID deletedBy).2.entries,
            ((r.month_key = trimStr monthKey && r.deleted_at.isNone) &&
              decide (r.id ≠ entryID)) =
              (r.month_key = trimStr monthKey && r.deleted_at.isNone) := by
          intro r hr
          by_cases hid : r.id = entryID
          · have hdel := hdead r hr hid
            cases hdd : r.deleted_at with
            | none => exact absurd hdd hdel
            | some t => simp [hdd]
          · simp [hid]
        rw [List.filter_congr heq]

/-- Witness for C9: concrete invisibility facts on the sample store after
deleting its live entry. -/
theorem soft_deleted_invisible_witness :
    (SoftDeleteEntry sampleDB 1 9).1 = .ok () ∧
      (SoftDeleteEntry sampleDB 1 9).2.entries.map (fun r => r.id) =
        sampleDB.entries.map (fun r => r.id) ∧
      repository.ListEntries sampleDB ⟨"", "", 10, 0⟩ =
        repository.ListEntries (liveOnly sampleDB) ⟨"", "", 10, 0⟩ :=
  ⟨by decide,
    ((soft_deleted_invisible sampleDB ⟨"", "", 10, 0⟩ "2024-01" 1 9).2.2.2
      (by decide)).1,
    (soft_deleted_invisible sampleDB ⟨"", "", 10, 0⟩ "2024-01" 1 9).1⟩

/-- C6: a valid listing query with page size 20 over 45 matching rows
reports total 45 and total_pages 3 = ceiling(45/20); page 3 consists of
exactly the 5 remaining rows of the ordered result set; and the items of
every page are ordered by creation time descending with id descending as
tie-break. -/
theorem pagination_45_rows (db : DBState) (input n : service.ListEntriesInput)
    (hn : service.normalizeListEntriesInput input = .ok n)
    (hv : repository.filterValidate (svcFilter n) = none)
    (hcount : (db.entries.filter
      (repository.matchesFilter (svcFilter n))).length = 45)
    (hps : n.pageSize = 20) :
    ∃ r, service.ListEntries db input = .ok r ∧
      r.total = 45 ∧ r.totalPages = 3 ∧
      List.Sorted ledgerLE r.items ∧
      (n.page = 3 →
        r.items = (sortedMatching db (svcFilter n)).drop 40 ∧
          r.items.length = 5) := by
  have hok : service.ListEntries db input = .ok
      { items := ((sortedMatching db (svcFilter n)).drop
          (svcFilter n).offset.toNat).take (svcFilter n).limit.toNat
        page := n.page
        pageSize := n.pageSize
        total := ((db.entries.filter
          (repository.matchesFilter (svcFilter n))).length : Int)
        totalPages := (((db.entries.filter
            (repository.matchesFilter (svcFilter n))).length : Int) +
          n.pageSize - 1) / n.pageSize } := by
    simp only [service.ListEntries, hn, hv, repo_list_ok db (svcFilter n) hv,
      repo_count_ok db (svcFilter n) hv]
  have hlim : (svcFilter n).limit.toNat = 20 := by
    show n.pageSize.toNat = 20
    rw [hps]
    rfl
  refine ⟨_, hok, ?_, ?_, ?_, ?_⟩
  · simp [hcount]
  · simp only [hcount, hps]
    decide
  · have hs := List.sorted_insertionSort ledgerLE
      (db.entries.filter (repository.matchesFilter (svcFilter n)))
    exact List.Pairwise.sublist
      ((List.take_sublist _ _).trans (List.drop_sublist _ _)) hs
  · intro hp3
    have hlen : (sortedMatching db (svcFilter n)).length = 45 := by
      unfold sortedMatching
      rw [(List.perm_insertionSort ledgerLE _).length_eq]
      exact hcount
    have hoff : (svcFilter n).offset.toNat = 40 := by
      show ((n.page - 1) * n.pageSize).toNat = 40
      rw [hp3, hps]
      rfl
    have hdropLen : ((sortedMatching db (svcFilter n)).drop 40).length = 5 := by
      rw [List.length_drop, hlen]
    constructor
    · show ((sortedMatching db (svcFilter n)).drop
          (svcFilter n).offset.toNat).take (svcFilter n).limit.toNat =
        (sortedMatching db (svcFilter n)).drop 40
      rw [hoff, hlim]
      apply List.take_of_length_le
      rw [hdropLen]
      omega
    · show (((sortedMatching db (svcFilter n)).drop
          (svcFilter n).offset.toNat).take (svcFilter n).limit.toNat).length = 5
      rw [hoff, hlim, List.length_take, hdropLen]
      omega

/-- Witness for C6: the 45-row store queried at page 3 with page size
20. -/
theorem pagination_45_rows_witness :
    service.normalizeListEntriesInput ⟨"", "", 3, 20⟩ = .ok ⟨"", "", 3, 20⟩ ∧
      repository.filterValidate (svcFilter ⟨"", "", 3, 20⟩) = none ∧
      (db45.entries.filter
        (repository.matchesFilter (svcFilter ⟨"", "", 3, 20⟩))).length = 45 ∧
      ∃ r, service.ListEntries db45 ⟨"", "", 3, 20⟩ = .ok r ∧
        r.total = 45 ∧ r.totalPages = 3 ∧
        List.Sorted ledgerLE r.items ∧
        ((⟨"", "", 3, 20⟩ : service.ListEntriesInput).page = 3 →
          r.items = (sortedMatching db45 (svcFilter ⟨"", "", 3, 20⟩)).drop 40 ∧
            r.items.length = 5) :=
  ⟨by decide, by decide, by decide,
    pagination_45_rows db45 ⟨"", "", 3, 20⟩ ⟨"", "", 3, 20⟩ (by decide)
      (by decide) (by decide) rfl⟩

/-- C5, counterexample to the claim as stated: the exponent-notation
string "1e-5" is accepted by `ValidateAmount` (it parses to 1/100000,
whose correctly rounded float is positive, and it contains no '.' so the
fractional-digit check does not fire), yet its value has more than two
fractional decimal places, so not every accepted amount is a decimal
with at most two fractional places. -/
theorem amount_validation_accepts_exponent_notation :
    ValidateAmount "1e-5" = .ok () ∧
      parseGoFloat? (trimStr "1e-5") = some (.finite 1 5) ∧
      ¬ FracAtMostTwo (1, 5) := by
  refine ⟨by decide, by decide, ?_⟩
  rintro ⟨c, hc⟩
  unfold decVal at hc
  have h1000 : ((1 : Int) : ℚ) / (10 : ℚ) ^ (5 : ℕ) * 100 = 1 / 1000 := by
    norm_num
  rw [h1000] at hc
  have hq : (1 : ℚ) = (c : ℚ) * 1000 := by
    field_simp at hc
    linarith
  have hz : (1 : Int) = c * 1000 := by exact_mod_cast hq
  omega

/-- C5 (amended): `ValidateAmount` rejects "0.00", "-5.00", "abc" and
"5.001" and accepts "5", "5.1" and "5.10", storing the trimmed input;
every accepted amount has at most two characters after the decimal point
of its trimmed literal, and its parse result is NaN, +Inf, or a finite
value that is positive; a finite value with at most two fractional
digits is expressible in hundredths.  The claim's unconditional
value-level guarantee fails, however: exponent notation ("1e-5") is
accepted with more than two fractional places, and `strconv.ParseFloat`
recognises special forms, so "nan" and "inf" are accepted outright and
denote no positive decimal at all. -/
theorem amount_validation_boundaries :
    ValidateAmount "0.00" = .error .notPositive ∧
      ValidateAmount "-5.00" = .error .notPositive ∧
      ValidateAmount "abc" = .error .notDecimal ∧
      ValidateAmount "5.001" = .error .tooManyDecimals ∧
      ValidateAmount "5" = .ok () ∧
      ValidateAmount "5.1" = .ok () ∧
      ValidateAmount "5.10" = .ok () ∧
      (∀ s g, ValidateAmount s = .ok () → parseGoFloat? (trimStr s) = some g →
        g = .nan ∨ g = .inf false ∨
          ∃ num k, g = .finite num k ∧ 0 < decVal (num, k)) ∧
      (∀ s, ValidateAmount s = .ok () →
        (splitStr (trimStr s) '.').length = 2 →
        ((splitStr (trimStr s) '.').getD 1 "").length ≤ 2) ∧
      (∀ p : Int × Nat, p.2 ≤ 2 → 0 < p.1 → FracAtMostTwo p) ∧
      (∀ raw, storedAmount raw = trimStr raw) ∧
      ValidateAmount "nan" = .ok () ∧
      ValidateAmount "inf" = .ok () := by
  refine ⟨by decide, by decide, by decide, by decide, by decide, by decide,
    by decide, ?_, ?_, ?_, fun _ => rfl, by decide, by decide⟩
  · intro s g hok hparse
    unfold ValidateAmount at hok
    by_cases hempty : trimStr s = ""
    · simp [hempty] at hok
    · simp only [hempty, if_false] at hok
      rw [hparse] at hok
      simp only at hok
      by_cases hpos : goFloatNonpos g
      · simp [hpos] at hok
      · cases g with
        | nan => exact Or.inl rfl
        | inf neg =>
          cases neg with
          | false => exact Or.inr (Or.inl rfl)
          | true => exact absurd rfl hpos
        | finite num k =>
          refine Or.inr (Or.inr ⟨num, k, rfl, ?_⟩)
          have hnum : 0 < num := by
            unfold goFloatNonpos floatNonpos at hpos
            simp only [Bool.or_eq_true, decide_eq_true_eq, not_or] at hpos
            exact lt_of_not_le hpos.1
          unfold decVal
          positivity
  · intro s hok hlen
    unfold ValidateAmount at hok
    by_cases hempty : trimStr s = ""
    · simp [hempty] at hok
    · simp only [hempty, if_false] at hok
      cases hparse : parseGoFloat? (trimStr s) with
      | none => rw [hparse] at hok; simp at hok
      | some g =>
        rw [hparse] at hok
        simp only at hok
        by_cases hpos : goFloatNonpos g
        · simp [hpos] at hok
        · simp only [hpos, Bool.false_eq_true, if_false] at hok
          by_cases hb : (splitStr (trimStr s) '.').length = 2 ∧
              2 < ((splitStr (trimStr s) '.').getD 1 "").length
          · simp [hb] at hok
            rw [List.getD_eq_getElem _ _
              (show 1 < (splitStr (trimStr s) '.').length by omega)]
            exact hok
          · push_neg at hb
            exact hb hlen
  · rintro ⟨n, k⟩ hk hn
    refine ⟨n * 10 ^ (2 - k), ?_⟩
    unfold decVal
    have h10 : (10 : ℚ) ^ k ≠ 0 := by positivity
    field_simp
    have hpow : (10 : ℚ) ^ (2 - k) * (10 : ℚ) ^ k = 100 := by
      rw [← pow_add]
      have h2 : 2 - k + k = 2 := by omega
      rw [h2]; norm_num
    linear_combination (-(n : ℚ)) * hpow

/-- Witness for the amended C5 theorem: its universal parts applied to
the accepted amount "5.10", which parses to the finite value 510/100. -/
theorem amount_validation_boundaries_witness :
    (ValidateAmount "5.10" = .ok () ∧
      parseGoFloat? (trimStr "5.10") = some (.finite 510 2) ∧
      ((.finite 510 2 : GoFloat) = .nan ∨ (.finite 510 2 : GoFloat) = .inf false ∨
        ∃ num k, (.finite 510 2 : GoFloat) = .finite num k ∧
          0 < decVal (num, k))) ∧
      FracAtMostTwo (510, 2) := by
  refine ⟨⟨by decide, by decide, ?_⟩, ?_⟩
  · exact amount_validation_boundaries.2.2.2.2.2.2.2.1 "5.10" (.finite 510 2)
      (by decide) (by decide)
  · exact amount_validation_boundaries.2.2.2.2.2.2.2.2.2.1 (510, 2)
      (by decide) (by decide)

end Propets
